import Mathlib

/-!
Verification of the horoscope-boutique dispatch core against its
natural-language specification.

The JavaScript sources are shallowly embedded: JS strings become
`List Char` (or Lean `String` where convenient), JS numbers that may be
`NaN` become `Option Nat`, fallible platform calls (the SMS/email
transports, the database) become explicit oracles or association lists,
and `Math.random` index choices become an explicit `pick` parameter.
-/

set_option maxRecDepth 10000

namespace HoroscopeBoutique

/-! ## JS number model (for `getZodiacSign`, src/unnamed/part_007)

`new Date(birthdate).getUTCMonth() + 1` / `.getUTCDate()` produce `NaN`
when the string does not parse; `NaN` compares false under `===`, `>=`
and `<=`.  A JS number that may be `NaN` is modelled as `Option Nat`,
with `none` playing `NaN`. -/

/-- Model of a JS number that may be `NaN` (`none` is `NaN`). -/
abbrev JsNum := Option Nat

/-- JS `a === n` on a possibly-`NaN` left operand: false for `NaN`. -/
def jsEq (a : JsNum) (n : Nat) : Bool :=
  match a with
  | some v => v == n
  | none => false

/-- JS `a >= n` on a possibly-`NaN` left operand: false for `NaN`. -/
def jsGe (a : JsNum) (n : Nat) : Bool :=
  match a with
  | some v => n ≤ v
  | none => false

/-- JS `a <= n` on a possibly-`NaN` left operand: false for `NaN`. -/
def jsLe (a : JsNum) (n : Nat) : Bool :=
  match a with
  | some v => v ≤ n
  | none => false

/-! ## Sign Deriver (src/unnamed/part_007, `getZodiacSign`) -/

/-- The twelve sign names of the `ZODIAC_SIGNS` table, in the order the
source's if-chain tests them (Pisces is the final `else`). -/
def zodiacSigns : List String :=
  ["Aries", "Taurus", "Gemini", "Cancer", "Leo", "Virgo",
   "Libra", "Scorpio", "Sagittarius", "Capricorn", "Aquarius", "Pisces"]

/-- Embedding of `getZodiacSign` from src/unnamed/part_007 lines 26-57.
The platform's `new Date(birthdate)` parse is abstracted away: the
function takes the extracted month (`getUTCMonth() + 1`) and day
(`getUTCDate()`) directly, as possibly-`NaN` JS numbers. -/
def getZodiacSign (month day : JsNum) : String :=
  if (jsEq month 3 && jsGe day 21) || (jsEq month 4 && jsLe day 19) then "Aries"
  else if (jsEq month 4 && jsGe day 20) || (jsEq month 5 && jsLe day 20) then "Taurus"
  else if (jsEq month 5 && jsGe day 21) || (jsEq month 6 && jsLe day 20) then "Gemini"
  else if (jsEq month 6 && jsGe day 21) || (jsEq month 7 && jsLe day 22) then "Cancer"
  else if (jsEq month 7 && jsGe day 23) || (jsEq month 8 && jsLe day 22) then "Leo"
  else if (jsEq month 8 && jsGe day 23) || (jsEq month 9 && jsLe day 22) then "Virgo"
  else if (jsEq month 9 && jsGe day 23) || (jsEq month 10 && jsLe day 22) then "Libra"
  else if (jsEq month 10 && jsGe day 23) || (jsEq month 11 && jsLe day 21) then "Scorpio"
  else if (jsEq month 11 && jsGe day 22) || (jsEq month 12 && jsLe day 21) then "Sagittarius"
  else if (jsEq month 12 && jsGe day 22) || (jsEq month 1 && jsLe day 19) then "Capricorn"
  else if (jsEq month 1 && jsGe day 20) || (jsEq month 2 && jsLe day 18) then "Aquarius"
  else "Pisces"

/-- The month/day range of the k-th sign of `zodiacSigns`, read off the
source's boundary conditions (Pisces, the `else` branch, covers
Feb 19 - Mar 20 per the source comment). -/
def inSignRange (k m d : Nat) : Bool :=
  match k with
  | 0 => (m == 3 && 21 ≤ d) || (m == 4 && d ≤ 19)
  | 1 => (m == 4 && 20 ≤ d) || (m == 5 && d ≤ 20)
  | 2 => (m == 5 && 21 ≤ d) || (m == 6 && d ≤ 20)
  | 3 => (m == 6 && 21 ≤ d) || (m == 7 && d ≤ 22)
  | 4 => (m == 7 && 23 ≤ d) || (m == 8 && d ≤ 22)
  | 5 => (m == 8 && 23 ≤ d) || (m == 9 && d ≤ 22)
  | 6 => (m == 9 && 23 ≤ d) || (m == 10 && d ≤ 22)
  | 7 => (m == 10 && 23 ≤ d) || (m == 11 && d ≤ 21)
  | 8 => (m == 11 && 22 ≤ d) || (m == 12 && d ≤ 21)
  | 9 => (m == 12 && 22 ≤ d) || (m == 1 && d ≤ 19)
  | 10 => (m == 1 && 20 ≤ d) || (m == 2 && d ≤ 18)
  | 11 => (m == 2 && 19 ≤ d) || (m == 3 && d ≤ 20)
  | _ => false

/-- Days in each month for calendar-date validity (February includes
leap-day 29). -/
def daysInMonth (m : Nat) : Nat :=
  match m with
  | 1 => 31 | 2 => 29 | 3 => 31 | 4 => 30 | 5 => 31 | 6 => 30
  | 7 => 31 | 8 => 31 | 9 => 30 | 10 => 31 | 11 => 30 | 12 => 31
  | _ => 0

/-! ## Contact Normalizer (src/unnamed/part_005, `normalizePhoneE164`) -/

/-- Embedding of `normalizePhoneE164` from src/unnamed/part_005 lines
11-36.  A non-string or `null`/`undefined` argument is `none`; the
falsy check `!phone` also rejects the empty string.  `\D` stripping is
`filter Char.isDigit`. -/
def normalizePhoneE164 (phone : Option String) : Option String :=
  match phone with
  | none => none
  | some s =>
    if s.length = 0 then none
    else
      let digits := s.data.filter Char.isDigit
      if digits.length = 11 ∧ digits.head? = some '1' then
        some (String.mk ('+' :: digits))
      else if digits.length = 10 then
        some (String.mk ('+' :: '1' :: digits))
      else if 11 ≤ digits.length then
        some (String.mk ('+' :: digits))
      else
        none

/-! ## SMS message splitting (src/src/sms.js, `splitMessage`) -/

/-- The whitespace characters removed by JS `String.prototype.trim`
that can occur in the messages at hand (space, tab, LF, CR). -/
def isWS (c : Char) : Bool :=
  c == ' ' || c == '\t' || c == '\n' || c == '\r'

/-- Drop trailing whitespace (the right half of JS `trim`). -/
def dropTrailingWS (l : List Char) : List Char :=
  (l.reverse.dropWhile isWS).reverse

/-- Embedding of JS `String.prototype.trim` on a `List Char` string. -/
def jsTrim (l : List Char) : List Char :=
  dropTrailingWS (l.dropWhile isWS)

/-- Embedding of JS `String.prototype.lastIndexOf` for a single
character: the largest index holding `c`, or `-1` when absent. -/
def lastIndexOfC (l : List Char) (c : Char) : Int :=
  match l.reverse.findIdx? (fun x => x == c) with
  | some i => (l.length : Int) - 1 - (i : Int)
  | none => -1

/-- The `splitIndex` computation of one `splitMessage` loop iteration
(src/src/sms.js lines 61-72): look for the last space, period or comma
in `substring(max(0, maxLength - 50), maxLength)` and cut just after it
when its index is positive, else cut hard at `maxLength`.
`substring(a, b)` is `drop a |>.take (b - a)`, and
`Math.max(0, maxLength - 50)` is the Nat subtraction `maxLen - 50`. -/
def splitIndexFor (maxLen : Nat) (remaining : List Char) : Nat :=
  let searchStart := maxLen - 50
  let chunk := (remaining.drop searchStart).take (maxLen - searchStart)
  let bestSplit :=
    max (lastIndexOfC chunk ' ') (max (lastIndexOfC chunk '.') (lastIndexOfC chunk ','))
  if 0 < bestSplit then searchStart + bestSplit.toNat + 1 else maxLen

/-- The body of `splitMessage`'s `while` loop (src/src/sms.js lines
55-76), with explicit fuel.  Each iteration consumes at least one
character of `remaining` whenever `0 < maxLen` (the source always runs
with `maxLength = 150`), so fuel `remaining.length` is enough; the
fuel-out branch is then unreachable. -/
def splitLoop (maxLen : Nat) : Nat → List Char → List (List Char)
  | _, [] => []
  | 0, _ => []
  | fuel + 1, remaining =>
    if remaining.length ≤ maxLen then [remaining]
    else
      jsTrim (remaining.take (splitIndexFor maxLen remaining)) ::
        splitLoop maxLen fuel (jsTrim (remaining.drop (splitIndexFor maxLen remaining)))

/-- Embedding of `splitMessage` from src/src/sms.js lines 47-79.  The
default `maxLength` in the source is 150; every caller uses it. -/
def splitMessage (message : List Char) (maxLen : Nat) : List (List Char) :=
  if message.length ≤ maxLen then [message]
  else splitLoop maxLen message.length message

/-- The 181-character message exhibiting whitespace loss at the split
boundary: 120 letters, a space, then 60 letters. -/
def c3Msg : List Char := List.replicate 120 'a' ++ ' ' :: List.replicate 60 'b'

/-! ## Email sender with retry (src/src/email.js, `sendHoroscopeEmail`)

The transport (`sendEmail`, an AWS SES network call) is abstracted as an
oracle mapping the 1-based attempt number to `Except error messageId`:
`Except.error e` models the call throwing, `Except.ok mid` models a
successful response. -/

/-- Result object of `sendHoroscopeEmail`: the success shape carries
`message_id` and the 1-based `attempt` that succeeded; the failure
shape carries the last error message and the `attempts` count. -/
inductive EmailResult where
  | ok (message_id : String) (attempt : Nat)
  | failed (error : String) (attempts : Nat)
deriving DecidableEq, Repr

/-- The retry loop of `sendHoroscopeEmail` (src/src/email.js lines
192-210): attempts run from `attempt` up to `maxRetries`; a caught
error is remembered as `lastError`.  After the loop the failure object
reports `lastError.message` and `attempts = maxRetries`. -/
def emailGo (transport : Nat → Except String String) (maxRetries attempt : Nat)
    (lastError : Option String) : EmailResult :=
  if h : attempt ≤ maxRetries then
    match transport attempt with
    | Except.ok mid => EmailResult.ok mid attempt
    | Except.error e => emailGo transport maxRetries (attempt + 1) (some e)
  else
    EmailResult.failed (lastError.getD "") maxRetries
termination_by maxRetries + 1 - attempt

/-- Embedding of `sendHoroscopeEmail` from src/src/email.js lines
189-217 (the source default `maxRetries = 3` is supplied by callers). -/
def sendHoroscopeEmail (transport : Nat → Except String String) (maxRetries : Nat) :
    EmailResult :=
  emailGo transport maxRetries 1 none

/-! ## SMS sender with splitting and retry (src/src/sms.js,
`sendHoroscopeSMS`)

The transport (`sendSMS`) is abstracted as an oracle mapping the
0-based part index and 1-based attempt number to `Except error smsId`. -/

/-- One entry of the `results` array of `sendHoroscopeSMS`.  The source
uses field `attempt` on success entries and `attempts` on failure
entries; both are modelled by `attemptNum`.  `sms_id` is present only
on success, `error` only on failure. -/
structure SmsPartResult where
  part : Nat
  total_parts : Nat
  success : Bool
  sms_id : Option String
  attemptNum : Nat
  error : Option String
deriving DecidableEq, Repr

/-- The per-part retry loop of `sendHoroscopeSMS` (src/src/sms.js lines
97-130): on success the entry records the succeeding attempt; after
`maxRetries` failures the entry records the last error and
`attempts = maxRetries`. -/
def smsPartGo (transport : Nat → Nat → Except String String)
    (maxRetries total idx attempt : Nat) (lastError : Option String) : SmsPartResult :=
  if h : attempt ≤ maxRetries then
    match transport idx attempt with
    | Except.ok sid =>
      { part := idx + 1, total_parts := total, success := true,
        sms_id := some sid, attemptNum := attempt, error := none }
    | Except.error e => smsPartGo transport maxRetries total idx (attempt + 1) (some e)
  else
    { part := idx + 1, total_parts := total, success := false,
      sms_id := none, attemptNum := maxRetries, error := some (lastError.getD "") }
termination_by maxRetries + 1 - attempt

/-- The part loop of `sendHoroscopeSMS` (src/src/sms.js lines 93-131):
parts are sent in order and the loop breaks after the first part whose
retries are exhausted (`// Don't send remaining parts if one fails`). -/
def smsParts (transport : Nat → Nat → Except String String) (maxRetries total : Nat) :
    Nat → List (List Char) → List SmsPartResult
  | _, [] => []
  | idx, _ :: rest =>
    let r := smsPartGo transport maxRetries total idx 1 none
    if r.success then r :: smsParts transport maxRetries total (idx + 1) rest
    else [r]

/-- Result object of `sendHoroscopeSMS` (src/src/sms.js lines 133-139). -/
structure SmsSendResult where
  success : Bool
  parts_sent : Nat
  total_parts : Nat
  results : List SmsPartResult
deriving DecidableEq, Repr

/-- Embedding of `sendHoroscopeSMS` from src/src/sms.js lines 89-140:
split at the source's default `maxLength = 150`, send parts in order
with per-part retries, report `success = all parts succeeded` and
`parts_sent = number of successful entries`. -/
def sendHoroscopeSMS (transport : Nat → Nat → Except String String)
    (message : List Char) (maxRetries : Nat) : SmsSendResult :=
  let parts := splitMessage message 150
  let results := smsParts transport maxRetries parts.length 0 parts
  { success := results.all (fun r => r.success),
    parts_sent := (results.filter (fun r => r.success)).length,
    total_parts := parts.length,
    results := results }

/-! ## Date utilities (src/unnamed/part_005, `isToday`) -/

/-- A UTC instant, at the resolution `isToday` inspects: calendar day
fields, plus an opaque sub-day component so that distinct instants of
one day exist in the model. -/
structure DateTimeUTC where
  year : Nat
  month : Nat
  day : Nat
  time : Nat
deriving DecidableEq, Repr

/-- Embedding of `isToday` from src/unnamed/part_005 lines 96-109: a
falsy (`none`) timestamp is not today; otherwise compare UTC year,
month and day with the current instant. -/
def isToday (timestamp : Option DateTimeUTC) (now : DateTimeUTC) : Bool :=
  match timestamp with
  | none => false
  | some ts => ts.year == now.year && ts.month == now.month && ts.day == now.day

/-! ## Dispatch core (src/unnamed/part_006 worker) -/

/-- The subscriber fields the per-user send path reads and writes. -/
structure WUser where
  delivery_method : String
  phone_e164 : Option String
  last_sent_at : Option DateTimeUTC
deriving DecidableEq, Repr

/-- The observable outcome of one `sendHoroscope` call: the per-channel
results, the subscriber row after the `UPDATE users SET last_sent_at`
statement, and the `delivery_log` status value. -/
structure SendOutcome where
  emailResult : Option EmailResult
  smsResult : Option SmsSendResult
  userAfter : WUser
  deliveryStatus : String
deriving DecidableEq, Repr

/-- Embedding of `sendHoroscope` from src/unnamed/part_006 lines
498-553 (src/src/worker.js lines 439-483 is identical in the modelled
respects).  Channel sends happen per `delivery_method` (SMS only when
`phone_e164` is present); the channel senders return failure objects
rather than throwing, so the `last_sent_at` update always runs; the
logged status is `success` iff some channel succeeded. -/
def sendHoroscope (emailT : Nat → Except String String)
    (smsT : Nat → Nat → Except String String) (u : WUser)
    (smsMessage : List Char) (now : DateTimeUTC) : SendOutcome :=
  let emailRes : Option EmailResult :=
    if u.delivery_method = "email" ∨ u.delivery_method = "both" then
      some (sendHoroscopeEmail emailT 3)
    else none
  let smsRes : Option SmsSendResult :=
    if (u.delivery_method = "sms" ∨ u.delivery_method = "both") ∧ u.phone_e164.isSome then
      some (sendHoroscopeSMS smsT smsMessage 3)
    else none
  let emailOk :=
    match emailRes with
    | some (EmailResult.ok _ _) => true
    | _ => false
  let smsOk :=
    match smsRes with
    | some r => r.success
    | none => false
  { emailResult := emailRes, smsResult := smsRes,
    userAfter := { u with last_sent_at := some now },
    deliveryStatus := if emailOk || smsOk then "success" else "failed" }

/-- One subscriber's step of `handleScheduled` (src/unnamed/part_006
lines 454-476): skip unless the local hour is 9; skip (without any
delivery call) when `last_sent_at` is from today; otherwise run the
send path.  The Bool records whether a delivery call happened. -/
def scheduledTickUser (emailT : Nat → Except String String)
    (smsT : Nat → Nat → Except String String) (u : WUser) (smsMessage : List Char)
    (localHour : Nat) (now : DateTimeUTC) : WUser × Bool :=
  if localHour ≠ 9 then (u, false)
  else if isToday u.last_sent_at now then (u, false)
  else ((sendHoroscope emailT smsT u smsMessage now).userAfter, true)

/-- A sequence of scheduled ticks hitting one subscriber, each tick
supplying the subscriber's local hour and the current instant; returns
the final subscriber row and the number of delivery calls made. -/
def runTicks (emailT : Nat → Except String String)
    (smsT : Nat → Nat → Except String String) (smsMessage : List Char) :
    WUser → List (Nat × DateTimeUTC) → WUser × Nat
  | u, [] => (u, 0)
  | u, (h, now) :: rest =>
    let step := scheduledTickUser emailT smsT u smsMessage h now
    let next := runTicks emailT smsT smsMessage step.1 rest
    (next.1, (if step.2 then 1 else 0) + next.2)

/-- The subscriber fields of the two-tier worker's morning branch
(src/src/worker.js lines 315-337). -/
structure MUser where
  last_morning_sent_at : Option DateTimeUTC
  morning_had_friction : Bool
deriving DecidableEq, Repr

/-- The morning branch of the two-tier `handleScheduled`
(src/src/worker.js lines 315-337): at local hour 9, skip when
`last_morning_sent_at` is from today, otherwise deliver and update the
morning tracking fields. -/
def morningTick (u : MUser) (localHour : Nat) (now : DateTimeUTC) (friction : Bool) :
    MUser × Bool :=
  if localHour = 9 then
    if isToday u.last_morning_sent_at now then (u, false)
    else ({ last_morning_sent_at := some now, morning_had_friction := friction }, true)
  else (u, false)

/-- Outcome of `handleRequest` for an active subscriber
(src/unnamed/part_006 lines 283-299): HTTP 429 with the prior timestamp
when already sent today, otherwise the send path runs. -/
inductive RequestOutcome where
  | alreadySent429 (last : DateTimeUTC)
  | sent (outcome : SendOutcome)
deriving DecidableEq, Repr

/-- Embedding of the manual `POST /request` path after the active-user
lookup (src/unnamed/part_006 lines 283-299). -/
def handleRequestActive (emailT : Nat → Except String String)
    (smsT : Nat → Nat → Except String String) (u : WUser) (smsMessage : List Char)
    (now : DateTimeUTC) : RequestOutcome :=
  match u.last_sent_at with
  | some ts =>
    if isToday (some ts) now then RequestOutcome.alreadySent429 ts
    else RequestOutcome.sent (sendHoroscope emailT smsT u smsMessage now)
  | none => RequestOutcome.sent (sendHoroscope emailT smsT u smsMessage now)

/-! ## Token-based unsubscribe (src/unnamed/part_006,
`handleUnsubscribeGet`)

The database is modelled as association lists: `tokens` maps the token
string to its row, `activeUsers` maps user id to the `is_active` flag.
Timestamps here are epoch numbers, ordered as `new Date` comparison
orders them. -/

/-- A row of the `unsubscribe_tokens` table. -/
structure TokenRecord where
  user_id : Nat
  expires_at : Nat
  used : Bool
deriving DecidableEq, Repr

/-- The database state `handleUnsubscribeGet` reads and writes. -/
structure UnsubDB where
  tokens : List (String × TokenRecord)
  activeUsers : List (Nat × Bool)
deriving DecidableEq, Repr

/-- First-match association-list lookup (the SQL `WHERE t.token = ?`). -/
def lookupToken (l : List (String × TokenRecord)) (k : String) : Option TokenRecord :=
  match l with
  | [] => none
  | (k2, v) :: rest => if k2 = k then some v else lookupToken rest k

/-- First-match lookup of a user row (the SQL `JOIN users u ON u.id =
t.user_id`); only presence matters here. -/
def lookupUser (l : List (Nat × Bool)) (k : Nat) : Option Bool :=
  match l with
  | [] => none
  | (k2, v) :: rest => if k2 = k then some v else lookupUser rest k

/-- The token query of `handleUnsubscribeGet` (src/unnamed/part_006
lines 354-359): the JOIN yields a row only when both the token and its
user exist. -/
def lookupJoin (db : UnsubDB) (tok : String) : Option TokenRecord :=
  match lookupToken db.tokens tok with
  | none => none
  | some tr => if (lookupUser db.activeUsers tr.user_id).isSome then some tr else none

/-- `UPDATE users SET is_active = 0 WHERE id = ?`. -/
def setUserInactive (users : List (Nat × Bool)) (uid : Nat) : List (Nat × Bool) :=
  match users with
  | [] => []
  | (k, v) :: rest =>
    if k = uid then (k, false) :: setUserInactive rest uid
    else (k, v) :: setUserInactive rest uid

/-- `UPDATE unsubscribe_tokens SET used = 1 WHERE token = ?`. -/
def setTokenUsed (tokens : List (String × TokenRecord)) (tok : String) :
    List (String × TokenRecord) :=
  match tokens with
  | [] => []
  | (k, v) :: rest =>
    if k = tok then (k, { v with used := true }) :: setTokenUsed rest tok
    else (k, v) :: setTokenUsed rest tok

/-- The four response pages of `handleUnsubscribeGet`: invalid link
(HTTP 400), expired link (400), already unsubscribed (200), success
(200). -/
inductive UnsubResponse where
  | invalidLink
  | linkExpired
  | alreadyUnsub
  | success
deriving DecidableEq, Repr

/-- Embedding of `handleUnsubscribeGet` from src/unnamed/part_006 lines
343-416: validate the token parameter, look the row up, reject expired
then already-used tokens without touching the database, and only on a
valid fresh token deactivate the user and mark the token used. -/
def handleUnsubscribeGet (db : UnsubDB) (tokenParam : Option String) (now : Nat) :
    UnsubDB × UnsubResponse :=
  match tokenParam with
  | none => (db, UnsubResponse.invalidLink)
  | some tok =>
    if tok.length < 32 then (db, UnsubResponse.invalidLink)
    else
      match lookupJoin db tok with
      | none => (db, UnsubResponse.invalidLink)
      | some tr =>
        if tr.expires_at < now then (db, UnsubResponse.linkExpired)
        else if tr.used then (db, UnsubResponse.alreadyUnsub)
        else
          ({ tokens := setTokenUsed db.tokens tok,
             activeUsers := setUserInactive db.activeUsers tr.user_id },
           UnsubResponse.success)

/-- A 32-character token for unsubscribe-flow witnesses. -/
def c8Tok : String := "abcdefghijklmnopqrstuvwxyzABCDEF"

/-- A one-user database with a fresh unsubscribe token expiring at 1000. -/
def c8db : UnsubDB :=
  { tokens := [(c8Tok, { user_id := 7, expires_at := 1000, used := false })],
    activeUsers := [(7, true)] }

/-- The same database with the token already marked used. -/
def c8dbUsed : UnsubDB :=
  { tokens := [(c8Tok, { user_id := 7, expires_at := 1000, used := true })],
    activeUsers := [(7, true)] }

/-! ## Reframe pattern selection (src/src/horoscope.js,
`selectReframePattern`) -/

/-- The `REFRAME_PATTERNS` pool from src/src/horoscope.js line 44. -/
def REFRAME_PATTERNS : List String := ["A", "B", "C", "D"]

/-- Embedding of `selectReframePattern` from src/src/horoscope.js lines
49-56.  `Math.floor(Math.random() * available.length)` is modelled by
`pick % available.length` for an arbitrary `pick`; `recentPatterns[0]`
is `head?` (the JS comparison against `undefined` keeps every pattern
when the list is empty) and the trailing `|| 'A'` is `headD "A"`. -/
def selectReframePattern (recentPatterns : List String) (pick : Nat) : String :=
  let available :=
    REFRAME_PATTERNS.filter (fun p => !((recentPatterns.take 3).contains p))
  if available.length = 0 then
    (REFRAME_PATTERNS.filter (fun p => !(recentPatterns.head? == some p))).headD "A"
  else
    available.getD (pick % available.length) "A"

/-- A transport behavior for one SMS part that eventually succeeds:
some attempt `a` within the retry budget returns ok, and every earlier
attempt throws. -/
def partHasSuccess (transport : Nat → Nat → Except String String)
    (maxRetries j : Nat) : Prop :=
  ∃ a, 1 ≤ a ∧ a ≤ maxRetries ∧
    (∀ b, 1 ≤ b → b < a → ∃ e, transport j b = Except.error e) ∧
    ∃ s, transport j a = Except.ok s

/-! ## Concrete transports and subscribers for witness instantiation -/

/-- An email transport failing on attempt 1 and succeeding afterwards. -/
def c4T : Nat → Except String String :=
  fun i => if i = 1 then Except.error "boom" else Except.ok "mid"

/-- An email transport failing on every attempt. -/
def c4Tfail : Nat → Except String String := fun _ => Except.error "boom"

/-- An SMS transport for which part 0 succeeds immediately and every
other part fails on every attempt. -/
def c5T : Nat → Nat → Except String String :=
  fun j _ => if j = 0 then Except.ok "sid" else Except.error "boom"

/-- A transport oracle whose every attempt succeeds. -/
def okEmailT : Nat → Except String String := fun _ => Except.ok "mid"

/-- An SMS transport oracle whose every attempt succeeds. -/
def okSmsT : Nat → Nat → Except String String := fun _ _ => Except.ok "sid"

/-- A subscriber whose last send is recorded earlier on 2024-05-01. -/
def c1User : WUser :=
  { delivery_method := "email", phone_e164 := none,
    last_sent_at := some ⟨2024, 5, 1, 3⟩ }

/-! ## Helper lemmas -/

@[simp] lemma jsEq_none (n : Nat) : jsEq none n = false := rfl

@[simp] lemma jsGe_none (n : Nat) : jsGe none n = false := rfl

@[simp] lemma jsLe_none (n : Nat) : jsLe none n = false := rfl

lemma daysInMonth_le (m : Nat) : daysInMonth m ≤ 31 := by
  unfold daysInMonth; split <;> omega

/-- Decidable kernel of the C6 partition statement, guarded by date
validity, so the whole claim can be checked by evaluation over the
finite month/day grid. -/
def zodiacCheck (m d : Nat) : Bool :=
  !((1 ≤ m) && (m ≤ 12) && (1 ≤ d) && (d ≤ daysInMonth m)) ||
  ((zodiacSigns.contains (getZodiacSign (some m) (some d))) &&
   (((List.range 12).countP fun k => inSignRange k m d) == 1) &&
   ((List.range 12).all fun k =>
      !(inSignRange k m d) || (getZodiacSign (some m) (some d) == zodiacSigns.getD k "")))

set_option maxHeartbeats 1000000 in
lemma zodiacCheck_holds : ∀ m < 13, ∀ d < 32, zodiacCheck m d = true := by decide

/-! ## Claim theorems -/

/-- C6: for every calendar date, `getZodiacSign` returns exactly one of
the 12 fixed sign names; the 12 month/day ranges partition the year
with no gaps or overlaps (exactly one range covers each valid date);
and the returned sign is the unique covering range's sign, so boundary
days such as month 3 day 21 and month 4 day 19 resolve uniquely. -/
theorem claim_C6 :
    ∀ m d : Nat, 1 ≤ m → m ≤ 12 → 1 ≤ d → d ≤ daysInMonth m →
      getZodiacSign (some m) (some d) ∈ zodiacSigns ∧
      ((List.range 12).countP fun k => inSignRange k m d) = 1 ∧
      (∀ k, k < 12 → inSignRange k m d = true →
        getZodiacSign (some m) (some d) = zodiacSigns.getD k "") := by
  intro m d h1 h2 h3 h4
  have hd32 : d < 32 := by have := daysInMonth_le m; omega
  have h := zodiacCheck_holds m (by omega) d hd32
  have hguard : ((1 ≤ m) && (m ≤ 12) && (1 ≤ d) && (d ≤ daysInMonth m) : Bool) = true := by
    simp [h1, h2, h3, h4]
  rw [zodiacCheck, hguard] at h
  simp only [Bool.not_true, Bool.false_or, Bool.and_eq_true] at h
  obtain ⟨⟨hmem, hcnt⟩, hall⟩ := h
  refine ⟨?_, ?_, ?_⟩
  · simpa using hmem
  · exact eq_of_beq hcnt
  · intro k hk hkr
    rw [List.all_eq_true] at hall
    have h5 := hall k (List.mem_range.mpr hk)
    simp only [hkr, Bool.not_true, Bool.false_or] at h5
    exact eq_of_beq h5

/-- Witness for C6 at the boundary date month 3, day 21. -/
theorem claim_C6_witness :
    getZodiacSign (some 3) (some 21) ∈ zodiacSigns ∧
    ((List.range 12).countP fun k => inSignRange k 3 21) = 1 ∧
    (∀ k, k < 12 → inSignRange k 3 21 = true →
      getZodiacSign (some 3) (some 21) = zodiacSigns.getD k "") :=
  claim_C6 3 21 (by decide) (by decide) (by decide) (by decide)

lemma mem_ite {α : Type} {c : Prop} [Decidable c] {a b : α} {l : List α}
    (ha : a ∈ l) (hb : b ∈ l) : (if c then a else b) ∈ l := by
  split <;> assumption

/-- C10: `getZodiacSign` is total over possibly-`NaN` month/day inputs:
it always returns one of the 12 sign names, and whenever the month or
the day is `NaN` (an unparseable birthdate string) every boundary check
is false and the result is `"Pisces"`. -/
theorem claim_C10 :
    (∀ month day : JsNum, getZodiacSign month day ∈ zodiacSigns) ∧
    (∀ month day : JsNum, month = none ∨ day = none →
      getZodiacSign month day = "Pisces") := by
  constructor
  · intro m d
    unfold getZodiacSign
    repeat' apply mem_ite
    all_goals decide
  · intro m d h
    rcases h with h | h
    · subst h
      simp only [getZodiacSign, jsEq_none, Bool.false_and, Bool.or_self,
        Bool.false_or, if_neg Bool.false_ne_true]
    · subst h
      simp only [getZodiacSign, jsGe_none, jsLe_none, Bool.and_false, Bool.or_self,
        Bool.false_or, if_neg Bool.false_ne_true]

/-- Witness for C10 at the fully-`NaN` input. -/
theorem claim_C10_witness : getZodiacSign none none = "Pisces" :=
  claim_C10.2 none none (Or.inl rfl)

/-- C7: phone normalization maps every input whose digit content is a
valid 10-digit domestic number to `+1` followed by those digits, and
returns the invalid sentinel (`none`, never an exception) on every
input with fewer than 10 digits and on non-string input. -/
theorem claim_C7 :
    (∀ s : String, (s.data.filter Char.isDigit).length = 10 →
      normalizePhoneE164 (some s) =
        some (String.mk ('+' :: '1' :: s.data.filter Char.isDigit))) ∧
    (∀ s : String, (s.data.filter Char.isDigit).length < 10 →
      normalizePhoneE164 (some s) = none) ∧
    normalizePhoneE164 none = none := by
  refine ⟨?_, ?_, rfl⟩
  · intro s h
    have hne : ¬ s.length = 0 := by
      intro c1
      have hd : s.data = [] := List.length_eq_zero.mp c1
      rw [hd] at h; simp at h
    have h11 : ¬ ((s.data.filter Char.isDigit).length = 11 ∧
        (s.data.filter Char.isDigit).head? = some '1') := by
      intro c
      rw [h] at c
      exact absurd c.1 (by norm_num)
    unfold normalizePhoneE164
    dsimp only
    rw [if_neg hne, if_neg h11, if_pos h]
  · intro s h
    unfold normalizePhoneE164
    dsimp only
    by_cases hc : s.length = 0
    · rw [if_pos hc]
    · rw [if_neg hc, if_neg (fun c => absurd c.1 (by omega)), if_neg (by omega),
        if_neg (by omega)]

/-- Witness for C7: a formatted 10-digit number normalizes to E.164 and
a 7-digit number is rejected. -/
theorem claim_C7_witness :
    normalizePhoneE164 (some "(202) 555-1234") = some "+12025551234" ∧
    normalizePhoneE164 (some "555-1234") = none := by
  constructor
  · have h := claim_C7.1 "(202) 555-1234" (by decide)
    simpa using h
  · exact claim_C7.2.1 "555-1234" (by decide)

/-- C2: the per-subscriber send path updates the subscriber's
`last_sent_at` to the current instant for every possible transport
behavior, including the behaviors in which one or all channel
deliveries fail. -/
theorem claim_C2 :
    ∀ (emailT : Nat → Except String String) (smsT : Nat → Nat → Except String String)
      (u : WUser) (msg : List Char) (now : DateTimeUTC),
      (sendHoroscope emailT smsT u msg now).userAfter =
        { u with last_sent_at := some now } ∧
      (sendHoroscope emailT smsT u msg now).userAfter.last_sent_at = some now := by
  intro emailT smsT u msg now
  exact ⟨rfl, rfl⟩

lemma getD_mem_of_lt {l : List String} {n : Nat} {d : String} (h : n < l.length) :
    l.getD n d ∈ l := by
  induction l generalizing n with
  | nil => simp at h
  | cons a t ih =>
    cases n with
    | zero => simp [List.getD]
    | succ k =>
      have hgd : List.getD (a :: t) (k + 1) d = List.getD t k d := rfl
      rw [hgd]
      exact List.mem_cons_of_mem a (ih (by simpa using h))

lemma available_ne_nil (l : List String) (hl : l.length ≤ 3) :
    REFRAME_PATTERNS.filter (fun p => !(l.contains p)) ≠ [] := by
  intro h
  have hmem : ∀ p ∈ REFRAME_PATTERNS, p ∈ l := by
    intro p hp
    by_contra hnp
    have hin : p ∈ REFRAME_PATTERNS.filter (fun p => !(l.contains p)) := by
      rw [List.mem_filter]
      exact ⟨hp, by simpa using hnp⟩
    rw [h] at hin
    exact absurd hin (List.not_mem_nil p)
  have hsub : ({"A", "B", "C", "D"} : Finset String) ⊆ l.toFinset := by
    intro x hx
    simp only [Finset.mem_insert, Finset.mem_singleton] at hx
    rcases hx with rfl | rfl | rfl | rfl <;>
      exact List.mem_toFinset.mpr (hmem _ (by decide))
  have h4 : 4 ≤ l.toFinset.card := by
    have hcard := Finset.card_le_card hsub
    simpa using hcard
  have hle := l.toFinset_card_le
  omega

/-- C9: for every history of recently used reframe patterns and every
random index, the selected pattern is one of A, B, C, D and does not
occur among the 3 most recent entries; and when all four patterns occur
among the recent entries the selection still differs from the very
last pattern used. -/
theorem claim_C9 :
    ∀ (recent : List String) (pick : Nat),
      selectReframePattern recent pick ∈ REFRAME_PATTERNS ∧
      selectReframePattern recent pick ∉ recent.take 3 ∧
      (∀ lastp rest, recent = lastp :: rest →
        (∀ p ∈ REFRAME_PATTERNS, p ∈ recent) →
        selectReframePattern recent pick ≠ lastp) := by
  intro recent pick
  have htl : (recent.take 3).length ≤ 3 := by
    rw [List.length_take]; omega
  have hne := available_ne_nil (recent.take 3) htl
  have hlen : (REFRAME_PATTERNS.filter (fun p => !((recent.take 3).contains p))).length ≠ 0 :=
    fun c => hne (List.length_eq_zero.mp c)
  have hres : selectReframePattern recent pick ∈
      REFRAME_PATTERNS.filter (fun p => !((recent.take 3).contains p)) := by
    unfold selectReframePattern
    dsimp only
    rw [if_neg hlen]
    exact getD_mem_of_lt (Nat.mod_lt _ (by omega))
  rw [List.mem_filter] at hres
  obtain ⟨hpat, hnc⟩ := hres
  have hnotin : selectReframePattern recent pick ∉ recent.take 3 := by
    intro hmem
    simp [hmem] at hnc
  refine ⟨hpat, hnotin, ?_⟩
  intro lastp rest hrec _hall hEq
  apply hnotin
  rw [hEq, hrec]
  simp [List.take]

/-- Witness for C9 on a 5-entry history containing all four patterns,
most recent first. -/
theorem claim_C9_witness :
    selectReframePattern ["A", "B", "C", "D", "A"] 2 ∈ REFRAME_PATTERNS ∧
    selectReframePattern ["A", "B", "C", "D", "A"] 2 ∉
      (["A", "B", "C", "D", "A"] : List String).take 3 ∧
    selectReframePattern ["A", "B", "C", "D", "A"] 2 ≠ "A" := by
  have h := claim_C9 ["A", "B", "C", "D", "A"] 2
  exact ⟨h.1, h.2.1, h.2.2 "A" ["B", "C", "D", "A"] rfl (by decide)⟩

/-- C1: a subscriber whose `last_sent_at` falls on the current calendar
day is skipped with no delivery call by the scheduled per-user step at
any local hour, by the manual request path (which answers 429 with the
prior timestamp), and by the two-tier morning branch; iterating any
number of same-day ticks performs zero delivery calls and leaves the
subscriber row unchanged. -/
theorem claim_C1 :
    ∀ (emailT : Nat → Except String String) (smsT : Nat → Nat → Except String String)
      (u : WUser) (msg : List Char) (ts : DateTimeUTC) (localHour : Nat)
      (now : DateTimeUTC),
      u.last_sent_at = some ts → isToday (some ts) now = true →
      scheduledTickUser emailT smsT u msg localHour now = (u, false) ∧
      handleRequestActive emailT smsT u msg now = RequestOutcome.alreadySent429 ts ∧
      (∀ (mu : MUser) (friction : Bool), mu.last_morning_sent_at = some ts →
        morningTick mu localHour now friction = (mu, false)) ∧
      (∀ ticks : List (Nat × DateTimeUTC),
        (∀ p ∈ ticks, isToday (some ts) p.2 = true) →
        runTicks emailT smsT msg u ticks = (u, 0)) := by
  intro emailT smsT u msg ts localHour now hls htoday
  have hskip : ∀ (hr : Nat) (nw : DateTimeUTC), isToday (some ts) nw = true →
      scheduledTickUser emailT smsT u msg hr nw = (u, false) := by
    intro hr nw hnw
    unfold scheduledTickUser
    by_cases h9 : hr ≠ 9
    · rw [if_pos h9]
    · rw [if_neg h9, hls, if_pos hnw]
  refine ⟨hskip localHour now htoday, ?_, ?_, ?_⟩
  · unfold handleRequestActive
    rw [hls]
    dsimp only
    rw [if_pos htoday]
  · intro mu friction hm
    unfold morningTick
    by_cases h9 : localHour = 9
    · rw [if_pos h9, hm, if_pos htoday]
    · rw [if_neg h9]
  · intro ticks hts
    induction ticks with
    | nil => rfl
    | cons p rest ih =>
      have hstep := hskip p.1 p.2 (hts p (List.mem_cons_self p rest))
      have hrest := ih (fun q hq => hts q (List.mem_cons_of_mem p hq))
      calc runTicks emailT smsT msg u (p :: rest)
          = ((runTicks emailT smsT msg
              (scheduledTickUser emailT smsT u msg p.1 p.2).1 rest).1,
             (if (scheduledTickUser emailT smsT u msg p.1 p.2).2 then 1 else 0) +
             (runTicks emailT smsT msg
              (scheduledTickUser emailT smsT u msg p.1 p.2).1 rest).2) := by
            cases p; rfl
        _ = (u, 0) := by rw [hstep]; simp [hrest]

/-- Witness for C1: a subscriber last sent earlier on 2024-05-01 is
skipped by the 9am tick and by three further same-day ticks. -/
theorem claim_C1_witness :
    scheduledTickUser okEmailT okSmsT c1User ['h', 'i'] 9 ⟨2024, 5, 1, 9⟩ =
      (c1User, false) ∧
    runTicks okEmailT okSmsT ['h', 'i'] c1User
      [(9, ⟨2024, 5, 1, 9⟩), (9, ⟨2024, 5, 1, 10⟩), (19, ⟨2024, 5, 1, 19⟩)] =
      (c1User, 0) := by
  have h := claim_C1 okEmailT okSmsT c1User ['h', 'i'] ⟨2024, 5, 1, 3⟩ 9
    ⟨2024, 5, 1, 9⟩ rfl (by decide)
  exact ⟨h.1, h.2.2.2 _ (by decide)⟩

lemma emailGo_succ (transport : Nat → Except String String) (maxRetries : Nat)
    (mid : String) :
    ∀ (j a : Nat) (le : Option String), a + j ≤ maxRetries →
      (∀ i, a ≤ i → i < a + j → ∃ e, transport i = Except.error e) →
      transport (a + j) = Except.ok mid →
      emailGo transport maxRetries a le = EmailResult.ok mid (a + j) := by
  intro j
  induction j with
  | zero =>
    intro a le hle _hfail hok
    rw [emailGo, dif_pos (by omega)]
    rw [Nat.add_zero] at hok
    rw [hok]
    rfl
  | succ j ih =>
    intro a le hle hfail hok
    obtain ⟨e, he⟩ := hfail a (Nat.le_refl a) (by omega)
    rw [emailGo, dif_pos (by omega), he]
    dsimp only
    have hgoal := ih (a + 1) (some e) (by omega)
      (fun i h1 h2 => hfail i (by omega) (by omega))
      (by rw [show a + 1 + j = a + (j + 1) by omega]; exact hok)
    rw [hgoal, show a + 1 + j = a + (j + 1) by omega]

lemma emailGo_fail (transport : Nat → Except String String) (maxRetries : Nat)
    (errF : Nat → String) :
    ∀ (j a : Nat) (le : Option String), a + j = maxRetries + 1 →
      (∀ i, a ≤ i → i ≤ maxRetries → transport i = Except.error (errF i)) →
      emailGo transport maxRetries a le =
        EmailResult.failed (if a ≤ maxRetries then errF maxRetries else le.getD "")
          maxRetries := by
  intro j
  induction j with
  | zero =>
    intro a le hj _hfail
    rw [emailGo, dif_neg (by omega), if_neg (by omega)]
  | succ j ih =>
    intro a le hj hfail
    have ha : a ≤ maxRetries := by omega
    rw [emailGo, dif_pos ha, hfail a (Nat.le_refl a) ha]
    dsimp only
    have hgoal := ih (a + 1) (some (errF a)) (by omega)
      (fun i h1 h2 => hfail i (by omega) h2)
    rw [hgoal, if_pos ha]
    by_cases hlast : a + 1 ≤ maxRetries
    · rw [if_pos hlast]
    · rw [if_neg hlast]
      have : a = maxRetries := by omega
      rw [this]
      rfl



lemma smsPartGo_succ (transport : Nat → Nat → Except String String)
    (maxRetries total idx : Nat) (sid : String) :
    ∀ (j a : Nat) (le : Option String), a + j ≤ maxRetries →
      (∀ i, a ≤ i → i < a + j → ∃ e, transport idx i = Except.error e) →
      transport idx (a + j) = Except.ok sid →
      smsPartGo transport maxRetries total idx a le =
        { part := idx + 1, total_parts := total, success := true,
          sms_id := some sid, attemptNum := a + j, error := none } := by
  intro j
  induction j with
  | zero =>
    intro a le hle _hfail hok
    rw [smsPartGo, dif_pos (by omega)]
    rw [Nat.add_zero] at hok
    rw [hok]
    rfl
  | succ j ih =>
    intro a le hle hfail hok
    obtain ⟨e, he⟩ := hfail a (Nat.le_refl a) (by omega)
    rw [smsPartGo, dif_pos (by omega), he]
    dsimp only
    have hgoal := ih (a + 1) (some e) (by omega)
      (fun i h1 h2 => hfail i (by omega) (by omega))
      (by rw [show a + 1 + j = a + (j + 1) by omega]; exact hok)
    rw [hgoal, show a + 1 + j = a + (j + 1) by omega]

lemma smsPartGo_fail (transport : Nat → Nat → Except String String)
    (maxRetries total idx : Nat) (errF : Nat → String) :
    ∀ (j a : Nat) (le : Option String), a + j = maxRetries + 1 →
      (∀ i, a ≤ i → i ≤ maxRetries → transport idx i = Except.error (errF i)) →
      smsPartGo transport maxRetries total idx a le =
        { part := idx + 1, total_parts := total, success := false, sms_id := none,
          attemptNum := maxRetries,
          error := some (if a ≤ maxRetries then errF maxRetries else le.getD "") } := by
  intro j
  induction j with
  | zero =>
    intro a le hj _hfail
    rw [smsPartGo, dif_neg (by omega), if_neg (by omega)]
  | succ j ih =>
    intro a le hj hfail
    have ha : a ≤ maxRetries := by omega
    rw [smsPartGo, dif_pos ha, hfail a (Nat.le_refl a) ha]
    dsimp only
    have hgoal := ih (a + 1) (some (errF a)) (by omega)
      (fun i h1 h2 => hfail i (by omega) h2)
    rw [hgoal, if_pos ha]
    by_cases hlast : a + 1 ≤ maxRetries
    · rw [if_pos hlast]
    · rw [if_neg hlast]
      have hamax : a = maxRetries := by omega
      rw [hamax]
      rfl

lemma splitMessage_short (msg : List Char) (maxLen : Nat) (h : msg.length ≤ maxLen) :
    splitMessage msg maxLen = [msg] := by
  unfold splitMessage
  rw [if_pos h]

/-- C4: with the transport failing exactly k times then succeeding
(k < maxRetries), the email sender and the SMS sender (single-segment
message) return a success result whose recorded attempt count is k+1;
with the transport failing maxRetries times they return a failure
result reporting exactly maxRetries attempts and the last error. -/
theorem claim_C4 :
    (∀ (transport : Nat → Except String String) (maxRetries k : Nat) (mid : String),
      k < maxRetries →
      (∀ i, 1 ≤ i → i ≤ k → ∃ e, transport i = Except.error e) →
      transport (k + 1) = Except.ok mid →
      sendHoroscopeEmail transport maxRetries = EmailResult.ok mid (k + 1)) ∧
    (∀ (transport : Nat → Except String String) (maxRetries : Nat) (errF : Nat → String),
      0 < maxRetries →
      (∀ i, 1 ≤ i → i ≤ maxRetries → transport i = Except.error (errF i)) →
      sendHoroscopeEmail transport maxRetries =
        EmailResult.failed (errF maxRetries) maxRetries) ∧
    (∀ (transport : Nat → Nat → Except String String) (maxRetries k : Nat) (sid : String)
      (msg : List Char), msg.length ≤ 150 → k < maxRetries →
      (∀ a, 1 ≤ a → a ≤ k → ∃ e, transport 0 a = Except.error e) →
      transport 0 (k + 1) = Except.ok sid →
      sendHoroscopeSMS transport msg maxRetries =
        { success := true, parts_sent := 1, total_parts := 1,
          results := [{ part := 1, total_parts := 1, success := true,
                        sms_id := some sid, attemptNum := k + 1, error := none }] }) ∧
    (∀ (transport : Nat → Nat → Except String String) (maxRetries : Nat)
      (errF : Nat → String) (msg : List Char), msg.length ≤ 150 → 0 < maxRetries →
      (∀ a, 1 ≤ a → a ≤ maxRetries → transport 0 a = Except.error (errF a)) →
      sendHoroscopeSMS transport msg maxRetries =
        { success := false, parts_sent := 0, total_parts := 1,
          results := [{ part := 1, total_parts := 1, success := false,
                        sms_id := none, attemptNum := maxRetries,
                        error := some (errF maxRetries) }] }) := by
  refine ⟨?_, ?_, ?_, ?_⟩
  · intro transport maxRetries k mid hk hfail hok
    have h := emailGo_succ transport maxRetries mid k 1 none (by omega)
      (fun i h1 h2 => hfail i h1 (by omega))
      (by rw [show 1 + k = k + 1 by omega]; exact hok)
    rw [sendHoroscopeEmail, h, show 1 + k = k + 1 by omega]
  · intro transport maxRetries errF hm hfail
    have h := emailGo_fail transport maxRetries errF maxRetries 1 none (by omega)
      (fun i h1 h2 => hfail i h1 h2)
    rw [sendHoroscopeEmail, h, if_pos (by omega)]
  · intro transport maxRetries k sid msg hmsg hk hfail hok
    have hone := smsPartGo_succ transport maxRetries 1 0 sid k 1 none (by omega)
      (fun i h1 h2 => hfail i h1 (by omega))
      (by rw [show 1 + k = k + 1 by omega]; exact hok)
    rw [show (1 : Nat) + k = k + 1 by omega] at hone
    unfold sendHoroscopeSMS
    rw [splitMessage_short msg 150 hmsg]
    have hParts : smsParts transport maxRetries 1 0 [msg] =
        [{ part := 1, total_parts := 1, success := true, sms_id := some sid,
           attemptNum := k + 1, error := none }] := by
      simp only [smsParts, hone]
      rfl
    dsimp only [List.length_cons, List.length_nil]
    rw [hParts]
    rfl
  · intro transport maxRetries errF msg hmsg hm hfail
    have hone := smsPartGo_fail transport maxRetries 1 0 errF maxRetries 1 none (by omega)
      (fun i h1 h2 => hfail i h1 h2)
    rw [if_pos (by omega)] at hone
    unfold sendHoroscopeSMS
    rw [splitMessage_short msg 150 hmsg]
    have hParts : smsParts transport maxRetries 1 0 [msg] =
        [{ part := 1, total_parts := 1, success := false, sms_id := none,
           attemptNum := maxRetries, error := some (errF maxRetries) }] := by
      simp only [smsParts, hone]
      rfl
    dsimp only [List.length_cons, List.length_nil]
    rw [hParts]
    rfl



lemma smsPartGo_of_hasSuccess (t : Nat → Nat → Except String String)
    (maxRetries total idx : Nat) (h : partHasSuccess t maxRetries idx) :
    ∃ sid a, 1 ≤ a ∧ a ≤ maxRetries ∧
      smsPartGo t maxRetries total idx 1 none =
        { part := idx + 1, total_parts := total, success := true,
          sms_id := some sid, attemptNum := a, error := none } := by
  obtain ⟨a, h1, h2, hfail, s, hok⟩ := h
  refine ⟨s, a, h1, h2, ?_⟩
  have hgo := smsPartGo_succ t maxRetries total idx s (a - 1) 1 none (by omega)
    (fun i hi1 hi2 => hfail i hi1 (by omega))
    (by rw [show 1 + (a - 1) = a by omega]; exact hok)
  rw [show 1 + (a - 1) = a by omega] at hgo
  exact hgo

lemma smsParts_fail_spec (t : Nat → Nat → Except String String)
    (maxRetries total : Nat) (errF : Nat → String) (hm : 0 < maxRetries) :
    ∀ (i start : Nat) (ps : List (List Char)), i < ps.length →
      (∀ j, j < i → partHasSuccess t maxRetries (start + j)) →
      (∀ a, 1 ≤ a → a ≤ maxRetries → t (start + i) a = Except.error (errF a)) →
      ∃ S, smsParts t maxRetries total start ps =
          S ++ [{ part := start + i + 1, total_parts := total, success := false,
                  sms_id := none, attemptNum := maxRetries,
                  error := some (errF maxRetries) }] ∧
        S.length = i ∧ ∀ r ∈ S, r.success = true ∧ r.part ≤ start + i := by
  intro i
  induction i with
  | zero =>
    intro start ps hlen hsucc hfail
    obtain ⟨p, rest, rfl⟩ : ∃ p rest, ps = p :: rest := by
      cases ps with
      | nil => simp at hlen
      | cons p rest => exact ⟨p, rest, rfl⟩
    have hr := smsPartGo_fail t maxRetries total start errF maxRetries 1 none (by omega)
      (fun a h1 h2 => by
        have hcall := hfail a h1 h2
        rw [Nat.add_zero] at hcall
        exact hcall)
    rw [if_pos (by omega)] at hr
    refine ⟨[], ?_, rfl, by simp⟩
    rw [Nat.add_zero]
    simp only [smsParts, hr]
    rfl
  | succ i ih =>
    intro start ps hlen hsucc hfail
    obtain ⟨p, rest, rfl⟩ : ∃ p rest, ps = p :: rest := by
      cases ps with
      | nil => simp at hlen
      | cons p rest => exact ⟨p, rest, rfl⟩
    obtain ⟨sid, a, _ha1, _ha2, hr⟩ :=
      smsPartGo_of_hasSuccess t maxRetries total start
        (by have hs := hsucc 0 (by omega); rw [Nat.add_zero] at hs; exact hs)
    obtain ⟨S, hS, hSlen, hSmem⟩ := ih (start + 1) rest (by simpa using hlen)
      (fun j hj => by
        have hs := hsucc (j + 1) (by omega)
        rw [show start + 1 + j = start + (j + 1) by omega]
        exact hs)
      (by
        intro b h1 h2
        rw [show start + 1 + i = start + (i + 1) by omega]
        exact hfail b h1 h2)
    refine ⟨{ part := start + 1, total_parts := total, success := true,
              sms_id := some sid, attemptNum := a, error := none } :: S, ?_, ?_, ?_⟩
    · have hcons : smsParts t maxRetries total start (p :: rest) =
          { part := start + 1, total_parts := total, success := true,
            sms_id := some sid, attemptNum := a, error := none } ::
            smsParts t maxRetries total (start + 1) rest := by
        simp only [smsParts, hr]
        rfl
      rw [hcons, hS, show start + 1 + i + 1 = start + (i + 1) + 1 by omega]
      rfl
    · simp [hSlen]
    · intro r hrm
      rcases List.mem_cons.mp hrm with hhead | htail
      · subst hhead
        refine ⟨rfl, ?_⟩
        show start + 1 ≤ start + (i + 1)
        omega
      · obtain ⟨hs1, hs2⟩ := hSmem r htail
        exact ⟨hs1, by omega⟩

/-- C5: if segment i of a multi-segment SMS fails on all retry
attempts (earlier segments having some successful attempt), no segment
beyond i is sent: the results stop at entry i+1, the overall result has
success = false, reports parts_sent = i, and its final entry carries
the failing segment's last error. -/
theorem claim_C5 :
    ∀ (transport : Nat → Nat → Except String String) (maxRetries : Nat)
      (msg : List Char) (i : Nat) (errF : Nat → String),
      0 < maxRetries → i < (splitMessage msg 150).length →
      (∀ j, j < i → partHasSuccess transport maxRetries j) →
      (∀ a, 1 ≤ a → a ≤ maxRetries → transport i a = Except.error (errF a)) →
      (sendHoroscopeSMS transport msg maxRetries).success = false ∧
      (sendHoroscopeSMS transport msg maxRetries).parts_sent = i ∧
      (sendHoroscopeSMS transport msg maxRetries).results.length = i + 1 ∧
      (∀ r ∈ (sendHoroscopeSMS transport msg maxRetries).results, r.part ≤ i + 1) ∧
      (∃ S, (sendHoroscopeSMS transport msg maxRetries).results =
        S ++ [{ part := i + 1, total_parts := (splitMessage msg 150).length,
                success := false, sms_id := none, attemptNum := maxRetries,
                error := some (errF maxRetries) }]) := by
  intro transport maxRetries msg i errF hm hi hsucc hfail
  obtain ⟨S, hS, hSlen, hSmem⟩ :=
    smsParts_fail_spec transport maxRetries (splitMessage msg 150).length errF hm
      i 0 (splitMessage msg 150) hi
      (fun j hj => by rw [Nat.zero_add]; exact hsucc j hj)
      (fun a h1 h2 => by rw [Nat.zero_add]; exact hfail a h1 h2)
  rw [Nat.zero_add] at hS
  have hres : (sendHoroscopeSMS transport msg maxRetries).results =
      S ++ [{ part := i + 1, total_parts := (splitMessage msg 150).length,
              success := false, sms_id := none, attemptNum := maxRetries,
              error := some (errF maxRetries) }] := by
    unfold sendHoroscopeSMS
    exact hS
  have hfilter : (S.filter fun r => r.success) = S :=
    List.filter_eq_self.mpr (fun r hr => (hSmem r hr).1)
  refine ⟨?_, ?_, ?_, ?_, ⟨S, hres⟩⟩
  · show ((sendHoroscopeSMS transport msg maxRetries).results.all fun r => r.success) = false
    rw [hres]
    simp
  · show ((sendHoroscopeSMS transport msg maxRetries).results.filter
      fun r => r.success).length = i
    rw [hres, List.filter_append, hfilter]
    simp [hSlen]
  · rw [hres]
    simp [hSlen]
  · intro r hrm
    rw [hres] at hrm
    rcases List.mem_append.mp hrm with hs | hlast
    · have := (hSmem r hs).2
      omega
    · simp at hlast
      subst hlast
      simp


/-- Witness for C4: fail-once-then-succeed gives attempt 2 of 3;
always-fail gives a failure after 3 attempts. -/
theorem claim_C4_witness :
    sendHoroscopeEmail c4T 3 = EmailResult.ok "mid" 2 ∧
    sendHoroscopeEmail c4Tfail 3 = EmailResult.failed "boom" 3 := by
  constructor
  · exact claim_C4.1 c4T 3 1 "mid" (by omega)
      (fun i h1 h2 => ⟨"boom", by
        have hi : i = 1 := by omega
        subst hi; rfl⟩)
      rfl
  · exact claim_C4.2.1 c4Tfail 3 (fun _ => "boom") (by omega) (fun i h1 h2 => rfl)

/-- Witness for C5 on a 200-character message split into 2 parts with
part 1 always failing. -/
theorem claim_C5_witness :
    (sendHoroscopeSMS c5T (List.replicate 200 'x') 3).success = false ∧
    (sendHoroscopeSMS c5T (List.replicate 200 'x') 3).parts_sent = 1 ∧
    (sendHoroscopeSMS c5T (List.replicate 200 'x') 3).results.length = 2 := by
  have h := claim_C5 c5T 3 (List.replicate 200 'x') 1 (fun _ => "boom") (by omega)
    (by decide)
    (fun j hj => by
      have hj0 : j = 0 := by omega
      subst hj0
      exact ⟨1, by omega, by omega, fun b hb1 hb2 => absurd hb2 (by omega), "sid", rfl⟩)
    (fun a h1 h2 => rfl)
  exact ⟨h.1, h.2.1, h.2.2.1⟩

lemma lookupToken_setTokenUsed (tokens : List (String × TokenRecord)) (tok : String) :
    lookupToken (setTokenUsed tokens tok) tok =
      (lookupToken tokens tok).map (fun tr => { tr with used := true }) := by
  induction tokens with
  | nil => rfl
  | cons p rest ih =>
    obtain ⟨k, v⟩ := p
    by_cases hk : k = tok
    · subst hk
      rw [show setTokenUsed ((k, v) :: rest) k =
            (k, { v with used := true }) :: setTokenUsed rest k from by
          simp only [setTokenUsed]; rw [if_pos trivial]]
      simp only [lookupToken]
      rw [if_pos trivial, if_pos trivial]
      rfl
    · rw [show setTokenUsed ((k, v) :: rest) tok = (k, v) :: setTokenUsed rest tok from by
          simp only [setTokenUsed]; rw [if_neg hk]]
      simp only [lookupToken]
      rw [if_neg hk, if_neg hk]
      exact ih

lemma lookupUser_setUserInactive (users : List (Nat × Bool)) (uid uid2 : Nat) :
    (lookupUser (setUserInactive users uid) uid2).isSome =
      (lookupUser users uid2).isSome := by
  induction users with
  | nil => rfl
  | cons p rest ih =>
    obtain ⟨k, v⟩ := p
    by_cases hu : k = uid
    · subst hu
      rw [show setUserInactive ((k, v) :: rest) k = (k, false) :: setUserInactive rest k
          from by simp only [setUserInactive]; rw [if_pos trivial]]
      simp only [lookupUser]
      by_cases h2 : k = uid2
      · rw [if_pos h2, if_pos h2]
        rfl
      · rw [if_neg h2, if_neg h2]
        exact ih
    · rw [show setUserInactive ((k, v) :: rest) uid = (k, v) :: setUserInactive rest uid
          from by simp only [setUserInactive]; rw [if_neg hu]]
      simp only [lookupUser]
      by_cases h2 : k = uid2
      · rw [if_pos h2, if_pos h2]
      · rw [if_neg h2, if_neg h2]
        exact ih



/-- C8: the GET unsubscribe flow leaves the database (account flag and
token state) entirely unchanged whenever the token is already used or
expired; and after a successful first use, any repeat use of the same
token changes nothing further and (when not expired) answers "already
unsubscribed". -/
theorem claim_C8 :
    (∀ (db : UnsubDB) (tok : String) (now : Nat) (tr : TokenRecord),
      lookupJoin db tok = some tr →
      tr.used = true ∨ tr.expires_at < now →
      (handleUnsubscribeGet db (some tok) now).1 = db) ∧
    (∀ (db : UnsubDB) (tok : String) (now : Nat) (tr : TokenRecord),
      ¬ tok.length < 32 →
      lookupJoin db tok = some tr →
      ¬ tr.expires_at < now →
      tr.used = false →
      (handleUnsubscribeGet db (some tok) now).2 = UnsubResponse.success ∧
      ∀ now2 : Nat,
        (handleUnsubscribeGet (handleUnsubscribeGet db (some tok) now).1
          (some tok) now2).1 = (handleUnsubscribeGet db (some tok) now).1 ∧
        (¬ tr.expires_at < now2 →
          (handleUnsubscribeGet (handleUnsubscribeGet db (some tok) now).1
            (some tok) now2).2 = UnsubResponse.alreadyUnsub)) := by
  constructor
  · intro db tok now tr hlook hbad
    unfold handleUnsubscribeGet
    try dsimp only
    by_cases hshort : tok.length < 32
    · rw [if_pos hshort]
    · rw [if_neg hshort, hlook]
      try dsimp only
      by_cases hexp : tr.expires_at < now
      · rw [if_pos hexp]
      · rw [if_neg hexp]
        have hused : tr.used = true := by
          rcases hbad with h | h
          · exact h
          · exact absurd h hexp
        rw [hused, if_pos rfl]
  · intro db tok now tr hshort hlook hexp hused
    have hfirst : handleUnsubscribeGet db (some tok) now =
        ({ tokens := setTokenUsed db.tokens tok,
           activeUsers := setUserInactive db.activeUsers tr.user_id },
         UnsubResponse.success) := by
      unfold handleUnsubscribeGet
      try dsimp only
      rw [if_neg hshort, hlook]
      try dsimp only
      rw [if_neg hexp, hused, if_neg Bool.false_ne_true]
    refine ⟨by rw [hfirst], ?_⟩
    intro now2
    have hTok : lookupToken db.tokens tok = some tr := by
      unfold lookupJoin at hlook
      rcases h : lookupToken db.tokens tok with _ | tr2
      · rw [h] at hlook; simp at hlook
      · rw [h] at hlook
        try dsimp only at hlook
        by_cases hu : (lookupUser db.activeUsers tr2.user_id).isSome
        · rw [if_pos hu] at hlook
          rw [Option.some_inj] at hlook
          rw [hlook]
        · rw [if_neg hu] at hlook; simp at hlook
    have hUser : (lookupUser db.activeUsers tr.user_id).isSome = true := by
      unfold lookupJoin at hlook
      rw [hTok] at hlook
      try dsimp only at hlook
      by_cases hu : (lookupUser db.activeUsers tr.user_id).isSome
      · exact hu
      · rw [if_neg hu] at hlook; simp at hlook
    have hlook2 : lookupJoin (handleUnsubscribeGet db (some tok) now).1 tok =
        some { tr with used := true } := by
      rw [hfirst]
      unfold lookupJoin
      try dsimp only
      rw [lookupToken_setTokenUsed, hTok]
      dsimp only [Option.map]
      rw [if_pos (by rw [lookupUser_setUserInactive]; exact hUser)]
    constructor
    · conv_lhs => rw [handleUnsubscribeGet]
      try dsimp only
      rw [if_neg hshort, hlook2]
      try dsimp only
      by_cases hexp2 : tr.expires_at < now2
      · rw [if_pos hexp2]
      · rw [if_neg hexp2]
        rw [if_pos rfl]
    · intro hexp2
      conv_lhs => rw [handleUnsubscribeGet]
      try dsimp only
      rw [if_neg hshort, hlook2]
      try dsimp only
      rw [if_neg hexp2, if_pos rfl]



/-- Witness for C8: a used token deactivates nothing; a fresh token
succeeds once and its repeat use is a no-op answering already
unsubscribed. -/
theorem claim_C8_witness :
    (handleUnsubscribeGet c8dbUsed (some c8Tok) 500).1 = c8dbUsed ∧
    (handleUnsubscribeGet c8db (some c8Tok) 500).2 = UnsubResponse.success ∧
    (handleUnsubscribeGet (handleUnsubscribeGet c8db (some c8Tok) 500).1
      (some c8Tok) 600).1 = (handleUnsubscribeGet c8db (some c8Tok) 500).1 ∧
    (handleUnsubscribeGet (handleUnsubscribeGet c8db (some c8Tok) 500).1
      (some c8Tok) 600).2 = UnsubResponse.alreadyUnsub := by
  have h1 := claim_C8.1 c8dbUsed c8Tok 500
    { user_id := 7, expires_at := 1000, used := true } (by decide) (Or.inl rfl)
  have h2 := claim_C8.2 c8db c8Tok 500
    { user_id := 7, expires_at := 1000, used := false }
    (by decide) (by decide) (by decide) rfl
  exact ⟨h1, h2.1, (h2.2 600).1, (h2.2 600).2 (by decide)⟩

lemma jsTrim_sublist (l : List Char) : (jsTrim l).Sublist l := by
  unfold jsTrim dropTrailingWS
  have h1 : ((l.dropWhile isWS).reverse.dropWhile isWS).Sublist (l.dropWhile isWS).reverse :=
    List.dropWhile_sublist isWS
  have h2 := h1.reverse
  rw [List.reverse_reverse] at h2
  exact h2.trans (List.dropWhile_sublist isWS)

lemma jsTrim_length_le (l : List Char) : (jsTrim l).length ≤ l.length :=
  (jsTrim_sublist l).length_le

lemma filter_dropWhile_isWS (l : List Char) :
    (l.dropWhile isWS).filter (fun c => !isWS c) = l.filter (fun c => !isWS c) := by
  induction l with
  | nil => rfl
  | cons a t ih =>
    by_cases ha : isWS a = true
    · rw [List.dropWhile_cons_of_pos ha, ih, List.filter_cons]
      simp [ha]
    · rw [List.dropWhile_cons_of_neg (by simpa using ha)]

lemma jsTrim_filter (l : List Char) :
    (jsTrim l).filter (fun c => !isWS c) = l.filter (fun c => !isWS c) := by
  unfold jsTrim dropTrailingWS
  rw [List.filter_reverse, filter_dropWhile_isWS, List.filter_reverse,
    List.reverse_reverse, filter_dropWhile_isWS]

lemma lastIndexOfC_le (l : List Char) (c : Char) :
    lastIndexOfC l c ≤ (l.length : Int) - 1 := by
  unfold lastIndexOfC
  cases h : l.reverse.findIdx? (fun x => x == c) with
  | none =>
    dsimp only
    omega
  | some i =>
    dsimp only
    omega

lemma splitIndexFor_pos (maxLen : Nat) (r : List Char) (hm : 0 < maxLen) :
    0 < splitIndexFor maxLen r := by
  unfold splitIndexFor
  dsimp only
  by_cases h : 0 < max (lastIndexOfC ((r.drop (maxLen - 50)).take (maxLen - (maxLen - 50))) ' ')
      (max (lastIndexOfC ((r.drop (maxLen - 50)).take (maxLen - (maxLen - 50))) '.')
        (lastIndexOfC ((r.drop (maxLen - 50)).take (maxLen - (maxLen - 50))) ','))
  · rw [if_pos h]; omega
  · rw [if_neg h]; exact hm

lemma splitIndexFor_le (maxLen : Nat) (r : List Char) (hm : 0 < maxLen)
    (hlong : maxLen < r.length) : splitIndexFor maxLen r ≤ maxLen := by
  unfold splitIndexFor
  dsimp only
  set chunk := (r.drop (maxLen - 50)).take (maxLen - (maxLen - 50)) with hchunkdef
  have hchunklen : chunk.length = maxLen - (maxLen - 50) := by
    rw [hchunkdef, List.length_take, List.length_drop]
    omega
  set bestSplit := max (lastIndexOfC chunk ' ')
    (max (lastIndexOfC chunk '.') (lastIndexOfC chunk ',')) with hbestdef
  by_cases h : 0 < bestSplit
  · rw [if_pos h]
    have h1 := lastIndexOfC_le chunk ' '
    have h2 := lastIndexOfC_le chunk '.'
    have h3 := lastIndexOfC_le chunk ','
    have hb : bestSplit ≤ (chunk.length : Int) - 1 := by
      rw [hbestdef]
      omega
    have hbn : bestSplit.toNat ≤ chunk.length - 1 := by omega
    rw [hchunklen] at hbn
    omega
  · rw [if_neg h]

lemma splitLoop_props (maxLen : Nat) (hm : 0 < maxLen) :
    ∀ (fuel : Nat) (r : List Char), r.length ≤ fuel →
      (∀ p ∈ splitLoop maxLen fuel r, p.length ≤ maxLen) ∧
      ((splitLoop maxLen fuel r).flatten.Sublist r) ∧
      ((splitLoop maxLen fuel r).flatten.filter (fun c => !isWS c) =
        r.filter (fun c => !isWS c)) := by
  intro fuel
  induction fuel with
  | zero =>
    intro r hr
    have hnil : r = [] := List.length_eq_zero.mp (Nat.le_zero.mp hr)
    subst hnil
    refine ⟨?_, ?_, ?_⟩
    · intro p hp; simp [splitLoop] at hp
    · simp [splitLoop]
    · simp [splitLoop]
  | succ fuel ih =>
    intro r hr
    cases r with
    | nil =>
      refine ⟨?_, ?_, ?_⟩
      · intro p hp; simp [splitLoop] at hp
      · simp [splitLoop]
      · simp [splitLoop]
    | cons a t =>
      by_cases hshort : (a :: t).length ≤ maxLen
      · have heq : splitLoop maxLen (fuel + 1) (a :: t) = [a :: t] := by
          rw [splitLoop, if_pos hshort]
          simp
        rw [heq]
        refine ⟨?_, ?_, ?_⟩
        · intro p hp
          rw [List.mem_singleton] at hp
          subst hp
          exact hshort
        · simp
        · simp
      · have heq : splitLoop maxLen (fuel + 1) (a :: t) =
            jsTrim ((a :: t).take (splitIndexFor maxLen (a :: t))) ::
              splitLoop maxLen fuel (jsTrim ((a :: t).drop (splitIndexFor maxLen (a :: t)))) := by
          rw [splitLoop, if_neg hshort]
          simp
        have hlong : maxLen < (a :: t).length := by omega
        have hs1 : 0 < splitIndexFor maxLen (a :: t) := splitIndexFor_pos maxLen (a :: t) hm
        have hs2 : splitIndexFor maxLen (a :: t) ≤ maxLen :=
          splitIndexFor_le maxLen (a :: t) hm hlong
        have hfuel : (jsTrim ((a :: t).drop (splitIndexFor maxLen (a :: t)))).length ≤ fuel := by
          have hd := jsTrim_length_le ((a :: t).drop (splitIndexFor maxLen (a :: t)))
          rw [List.length_drop] at hd
          omega
        obtain ⟨ihA, ihB, ihC⟩ := ih (jsTrim ((a :: t).drop (splitIndexFor maxLen (a :: t)))) hfuel
        rw [heq]
        refine ⟨?_, ?_, ?_⟩
        · intro p hp
          rcases List.mem_cons.mp hp with hphead | hptail
          · subst hphead
            have h1 := jsTrim_length_le ((a :: t).take (splitIndexFor maxLen (a :: t)))
            have h2 : ((a :: t).take (splitIndexFor maxLen (a :: t))).length ≤
                splitIndexFor maxLen (a :: t) := by
              rw [List.length_take]; omega
            omega
          · exact ihA p hptail
        · rw [List.flatten_cons]
          have hhead : (jsTrim ((a :: t).take (splitIndexFor maxLen (a :: t)))).Sublist
              ((a :: t).take (splitIndexFor maxLen (a :: t))) :=
            jsTrim_sublist _
          have htail : ((splitLoop maxLen fuel
              (jsTrim ((a :: t).drop (splitIndexFor maxLen (a :: t))))).flatten).Sublist
              ((a :: t).drop (splitIndexFor maxLen (a :: t))) :=
            ihB.trans (jsTrim_sublist _)
          have happ := hhead.append htail
          rw [List.take_append_drop] at happ
          exact happ
        · rw [List.flatten_cons, List.filter_append, jsTrim_filter, ihC, jsTrim_filter,
            ← List.filter_append, List.take_append_drop]



/-- C3 counterexample: for the 181-character message `c3Msg`
(`maxLength = 150`, the configured value), `splitMessage` trims the
space at the split boundary, so concatenating the returned segments
does not reconstruct the original text. -/
theorem claim_C3_counterexample :
    ¬ ((splitMessage c3Msg 150).flatten = c3Msg) := by decide

/-- C3 amended: every returned segment has length at most the
configured maximum; concatenating the segments yields the original
text only up to whitespace trimmed at the segment boundaries — the
concatenation is an in-order subsequence of the original and agrees
with it exactly after deleting all whitespace. -/
theorem claim_C3_amended :
    ∀ (msg : List Char) (maxLen : Nat), 0 < maxLen →
      (∀ p ∈ splitMessage msg maxLen, p.length ≤ maxLen) ∧
      ((splitMessage msg maxLen).flatten.Sublist msg) ∧
      ((splitMessage msg maxLen).flatten.filter (fun c => !isWS c) =
        msg.filter (fun c => !isWS c)) := by
  intro msg maxLen hm
  by_cases hshort : msg.length ≤ maxLen
  · have heq : splitMessage msg maxLen = [msg] := by rw [splitMessage, if_pos hshort]
    rw [heq]
    refine ⟨?_, by simp, by simp⟩
    intro p hp
    rw [List.mem_singleton] at hp
    subst hp
    exact hshort
  · have heq : splitMessage msg maxLen = splitLoop maxLen msg.length msg := by
      rw [splitMessage, if_neg hshort]
    rw [heq]
    exact splitLoop_props maxLen hm msg.length msg (Nat.le_refl _)

/-- Witness for the amended C3 at the 181-character message and the
configured maximum length 150. -/
theorem claim_C3_witness :
    (∀ p ∈ splitMessage c3Msg 150, p.length ≤ 150) ∧
    ((splitMessage c3Msg 150).flatten.Sublist c3Msg) ∧
    ((splitMessage c3Msg 150).flatten.filter (fun c => !isWS c) =
      c3Msg.filter (fun c => !isWS c)) :=
  claim_C3_amended c3Msg 150 (by decide)

end HoroscopeBoutique
